import Mathlib

/-!
Verification of the attic token / resolver core against its design document.

The definitions below are a shallow embedding of the TypeScript sources:
the access-token schema lifecycle hooks, the scope matcher, the
refresh/exchange flow of src/unnamed/part_001, and the HTTP resolver
middleware of src/attic-server/src/Web/ResolverMiddleware.ts.  Strings are
manipulated through their character lists so that every definition reduces
inside the kernel.
-/

namespace Attic

/-! ## A model of the JavaScript RegExp fragment used by the sources

The scope strings fed to new RegExp in the sources only use character
literals, backslash escapes of single characters, the wildcard dot and the
two anchors, optionally with the case-insensitive flag.  The model below
covers exactly that fragment; RegExp.prototype.test is unanchored search. -/

/-- One compiled regular-expression item: begin anchor, end anchor,
wildcard dot, or a literal character. -/
inductive RItem
  | bol
  | eol
  | dot
  | lit (c : Char)
deriving DecidableEq, Repr

/-- A compiled regular expression: the item sequence and the
case-insensitivity flag. -/
structure JSRegex where
  items : List RItem
  ignoreCase : Bool
deriving DecidableEq, Repr

/-- Parse a JavaScript regular-expression source string (restricted to the
fragment the repository uses) into items.  A backslash escapes the next
character to a literal. -/
def parsePattern : List Char → List RItem
  | [] => []
  | '\\' :: c :: rest => RItem.lit c :: parsePattern rest
  | '\\' :: [] => []
  | '^' :: rest => RItem.bol :: parsePattern rest
  | '$' :: rest => RItem.eol :: parsePattern rest
  | '.' :: rest => RItem.dot :: parsePattern rest
  | c :: rest => RItem.lit c :: parsePattern rest

/-- Character comparison, optionally case-insensitive. -/
def charEq (ci : Bool) (a b : Char) : Bool :=
  if ci then a.toLower == b.toLower else a == b

/-- Try to match the item sequence against a prefix of the character list;
atStart records whether the current position is the beginning of the
input (for the begin anchor).  Returns the number of characters consumed. -/
def matchLen (ci : Bool) : List RItem → Bool → List Char → Option Nat
  | [], _, _ => some 0
  | RItem.bol :: rest, atStart, s =>
    if atStart then matchLen ci rest atStart s else none
  | RItem.eol :: rest, atStart, s =>
    if s.isEmpty then matchLen ci rest atStart s else none
  | RItem.dot :: rest, _, _ :: t =>
    (matchLen ci rest false t).map (fun n => n + 1)
  | RItem.dot :: _, _, [] => none
  | RItem.lit a :: rest, _, c :: t =>
    if charEq ci a c then (matchLen ci rest false t).map (fun n => n + 1) else none
  | RItem.lit _ :: _, _, [] => none

/-- Unanchored search: try to match at the current position, else advance
by one character (JavaScript RegExp.prototype.test). -/
def regexSearch (ci : Bool) (items : List RItem) : Bool → List Char → Bool
  | atStart, [] => (matchLen ci items atStart []).isSome
  | atStart, c :: t =>
    (matchLen ci items atStart (c :: t)).isSome || regexSearch ci items false t

/-- RegExp.prototype.test of the compiled regex against a string. -/
def regexTest (re : JSRegex) (s : String) : Bool :=
  regexSearch re.ignoreCase re.items true s.data

/-- JavaScript String.prototype.split with a single-character separator
(no limit argument). -/
def splitOnChar (sep : Char) : List Char → List (List Char)
  | [] => [[]]
  | c :: t =>
    let r := splitOnChar sep t
    if c == sep then [] :: r
    else
      match r with
      | h :: rs => (c :: h) :: rs
      | [] => [[c]]

/-- Join character lists with a single-character separator
(Array.prototype.join). -/
def joinWithChar (sep : Char) : List (List Char) → List Char
  | [] => []
  | [h] => h
  | h :: t => h ++ sep :: joinWithChar sep t

/-- Compile one granted scope entry exactly as
AccessTokenSchema.methods.isAuthorizedToDo (src/unnamed/part_001 lines
306-316) does: an entry whose first character is not a slash is passed to
new RegExp directly; otherwise the entry is split on slashes, the trailing
segment is taken as the flags and the middle segments, re-joined with
slashes, form the pattern.  Only the case-insensitive flag is modelled. -/
def compileScope (x : String) : JSRegex :=
  if x.data.head? = some '/' then
    let parts := splitOnChar '/' x.data
    let options := parts.getLastD []
    let middle := (parts.drop 1).take (parts.length - 2)
    { items := parsePattern (joinWithChar '/' middle),
      ignoreCase := options.contains 'i' }
  else
    { items := parsePattern x.data, ignoreCase := false }

/-- The effective per-token scope check, embedding the second (later, and
therefore winning) assignment to AccessTokenSchema.methods.isAuthorizedToDo
(src/unnamed/part_001 lines 306-323): true iff some granted entry, compiled
to a regex, tests positive against the requested scope. -/
def isAuthorizedToDo (granted : List String) (requested : String) : Bool :=
  granted.any (fun x => regexTest (compileScope x) requested)

/-- The earlier assignment to AccessTokenSchema.methods.isAuthorizedToDo
(src/unnamed/part_001 lines 166-171), shadowed by the later one: exact
membership of the requested scope in the granted list (the case where the
argument is a function is outside the string model). -/
def isAuthorizedToDoEarlier (granted : List String) (requested : String) : Bool :=
  granted.contains requested

/-! ## Data model: tokens, clients, users, configuration -/

/-- tokenType of an access-token record ('bearer' or 'refresh_token'). -/
inductive TokenType
  | bearer
  | refresh_token
deriving DecidableEq, Repr

/-- clientRole of an access-token record or client. -/
inductive ClientRole
  | provider
  | consumer
deriving DecidableEq, Repr

/-- A JavaScript optional number field, distinguishing undefined, null and
an actual numeric value (the client expiry override fields use exactly
null as the never-expires sentinel and undefined as use-the-default). -/
inductive JSNum
  | undef
  | nul
  | val (n : Int)
deriving DecidableEq, Repr

/-- An access-token document (the AccessTokenSchema fields used by the
lifecycle and refresh logic; references are held by identifier). -/
structure Token where
  id : Nat
  tokenType : TokenType
  token : String
  linkedToken : Option Nat
  expiresAt : Option Int
  scope : List String
  user : Option Nat
  client : Nat
  clientRole : ClientRole
  clientName : Option String
deriving DecidableEq, Repr

/-- A client document (the fields the token lifecycle reads). -/
structure Client where
  id : Nat
  name : String
  scope : List String
  expireAccessTokenIn : JSNum
  expireRefreshTokenIn : JSNum
  redirectUri : String
  tokenUri : String
  clientId : String
  clientSecret : String
deriving DecidableEq, Repr

/-- A user document: its grantable scope set and its existing token set. -/
structure UserRec where
  id : Nat
  scope : List String
  tokens : List Token
deriving DecidableEq, Repr

/-- The configuration fields the token lifecycle reads (global default
TTLs, in milliseconds). -/
structure Config where
  expireTokenIn : Int
  expireRefreshTokenIn : Int
deriving DecidableEq, Repr

/-- JavaScript string coercion of an optional string (string concatenation
with undefined yields the text undefined). -/
def jsStringOfOpt : Option String → String
  | some s => s
  | none => "undefined"

/-- Errors the pre-save lifecycle hook can raise. -/
inductive SaveError
  | couldNotFindTokenForScope (scope : String)
  | notAuthorizedToUseScopes (scopes : List String)
deriving DecidableEq, Repr

/-! ## Scope partitioning and the pre-save hook -/

/-- Modelled from the spec: the free Scope Matcher function exported by the
User module (imported as isAuthorizedToDo from ../User in
src/unnamed/part_001 line 5; the User module itself is not among the
sources).  Per spec section 4.1 it has the same semantics as the schema
method: true iff some granted entry, compiled to a regex (slash-delimited
pattern/flags form or direct), tests positive against the requested
scope. -/
def scopeMatches (granted : List String) (requested : String) : Bool :=
  granted.any (fun x => regexTest (compileScope x) requested)

/-- getValidInvalidScopes (src/unnamed/part_001 lines 127-139): partition
the requested scopes into (unauthorizedScopes, validScopes); a scope is
valid iff it matches the user grant or the client grant; empty strings are
skipped entirely. -/
def getValidInvalidScopes : List String → Client → UserRec → List String × List String
  | [], _, _ => ([], [])
  | s :: rest, c, u =>
    let r := getValidInvalidScopes rest c u
    if s = "" then r
    else if scopeMatches u.scope s || scopeMatches c.scope s then (r.1, s :: r.2)
    else (s :: r.1, r.2)

/-- Modelled from the spec: user.getAccessTokensForScope (User module, not
among the sources) iterates the user's existing token set filtered to the
given scopes, yielding for each scope a pair of the scope and a token of
the user satisfying it, with none when the user holds no such token. -/
def getAccessTokensForScope (u : UserRec) (scopes : List String) :
    List (String × Option Token) :=
  scopes.map (fun s => (s, u.tokens.find? (fun t => isAuthorizedToDo t.scope s)))

/-- The pre-save lifecycle hook, AccessTokenSchema.pre save
(src/unnamed/part_001 lines 90-117).  Steps, in source order: stamp
clientName from the owning client; for provider-role tokens with non-empty
scope, prefix every scope entry with the client name and a dot; then, for
a bearer token whose client expireAccessTokenIn is not null (respectively a
refresh token and expireRefreshTokenIn), the source computes
now + (override or configured default) and RETURNS that number from the
async middleware - mongoose discards the resolved value, so expiresAt is
left unchanged and the rest of the hook is skipped; otherwise, if the token
has an owning user and is consumer-role, every presently-unauthorized scope
must be satisfied by one of the user's existing tokens or the save aborts
with CouldNotFindTokenForScopeError.  Client and user lookups are modelled
as total (the records are assumed to exist). -/
def preSave (_cfg : Config) (client : Client) (findUser : Nat → UserRec)
    (t : Token) : Except SaveError Token :=
  let t1 : Token := { t with clientName := some client.name }
  let t2 : Token :=
    if t1.clientRole = ClientRole.provider ∧ t1.scope ≠ [] then
      { t1 with scope := t1.scope.map (fun s => client.name ++ "." ++ s) }
    else t1
  if t2.tokenType = TokenType.bearer ∧ client.expireAccessTokenIn ≠ JSNum.nul then
    Except.ok t2
  else if t2.tokenType = TokenType.refresh_token ∧
      client.expireRefreshTokenIn ≠ JSNum.nul then
    Except.ok t2
  else
    match t2.user with
    | none => Except.ok t2
    | some uid =>
      if t2.clientRole = ClientRole.consumer then
        let u := findUser uid
        let unauth := (getValidInvalidScopes t2.scope client u).1
        match (getAccessTokensForScope u unauth).find? (fun p => p.2.isNone) with
        | some p => Except.error (SaveError.couldNotFindTokenForScope p.1)
        | none => Except.ok t2
      else Except.ok t2

/-- The expiry instant the pre-save hook computes and returns (and which
mongoose then discards): src/unnamed/part_001 lines 98-102.  For a bearer
token with non-null client override it is now + (override if defined,
otherwise config.expireTokenIn); analogously for refresh tokens; none when
neither branch is taken (the null never-expires sentinel). -/
def preSaveComputedExpiry (cfg : Config) (client : Client) (t : Token)
    (now : Int) : Option Int :=
  if t.tokenType = TokenType.bearer ∧ client.expireAccessTokenIn ≠ JSNum.nul then
    some (now + match client.expireAccessTokenIn with
      | JSNum.val n => n
      | _ => cfg.expireTokenIn)
  else if t.tokenType = TokenType.refresh_token ∧
      client.expireRefreshTokenIn ≠ JSNum.nul then
    some (now + match client.expireRefreshTokenIn with
      | JSNum.val n => n
      | _ => cfg.expireRefreshTokenIn)
  else none

/-! ## The formalScope virtual and string replacement -/

/-- Remove the first match of the item sequence from the character list
(JavaScript String.prototype.replace with a non-global regex and the empty
replacement string): scan left to right, drop the first matched span. -/
def replaceFirstAux (ci : Bool) (items : List RItem) :
    Bool → List Char → Option (List Char)
  | atStart, [] =>
    if (matchLen ci items atStart []).isSome then some [] else none
  | atStart, c :: t =>
    match matchLen ci items atStart (c :: t) with
    | some n => some ((c :: t).drop n)
    | none => (replaceFirstAux ci items false t).map (fun r => c :: r)

/-- String.prototype.replace with a regex (no global flag) and the empty
string as replacement: the string with its first matched span removed, or
the string itself when the regex matches nowhere. -/
def jsReplaceFirst (re : JSRegex) (s : String) : String :=
  match replaceFirstAux re.ignoreCase re.items true s.data with
  | some r => String.mk r
  | none => s

/-- The formalScope virtual (src/unnamed/part_001 lines 156-161): for
provider-role tokens each stored scope is passed through replace with
new RegExp of the dollar sign concatenated with the client name (the
source text is a dollar prefix, not a caret prefix), and the empty
replacement; consumer-role scopes are returned verbatim. -/
def formalScope (t : Token) : List String :=
  if t.clientRole = ClientRole.provider then
    t.scope.map (fun s =>
      jsReplaceFirst
        { items := parsePattern ("$" ++ jsStringOfOpt t.clientName).data,
          ignoreCase := false } s)
  else t.scope

/-! ## Post-save hook, store operations and the refresh flow -/

/-- The post-save lifecycle hook, AccessTokenSchema.post save
(src/unnamed/part_001 lines 141-145): if the just-saved document is a
bearer token with a linkedToken, delete every bearer token sharing that
linkedToken whose identifier differs from the saved document's. -/
def postSave (doc : Token) (store : List Token) : List Token :=
  if doc.tokenType = TokenType.bearer ∧ doc.linkedToken ≠ none then
    store.filter (fun t =>
      decide (¬ (t.tokenType = TokenType.bearer ∧
        t.linkedToken = doc.linkedToken ∧ t.id ≠ doc.id)))
  else store

/-- Mongoose document save against a store modelled as a token list:
insert, or update in place when a document with the same identifier
exists. -/
def upsert (doc : Token) (store : List Token) : List Token :=
  if store.any (fun t => decide (t.id = doc.id)) then
    store.map (fun t => if t.id = doc.id then doc else t)
  else store ++ [doc]

/-- Persisting a token: the upsert followed by the post-save hook.  (The
pre-save hook is modelled separately as preSave; on the tokens handled in
the theorems below it only stamps clientName, because the expiry branch
returns before the consumer-scope check.) -/
def saveToken (doc : Token) (store : List Token) : List Token :=
  postSave doc (upsert doc store)

/-- The wire-format token shape exchanged with the upstream authority
(IFormalAccessToken).  Optional fields model absent JSON members; an
expires_in of zero is falsy in the source and treated as absent. -/
structure FormalAccessToken where
  access_token : String
  refresh_token : Option String
  scope : Option String
  expires_in : Option Int
  token_type : String
deriving DecidableEq, Repr

/-- fromFormalToken (src/unnamed/part_001 lines 245-279): build a bearer
token from the wire fields (expires_in seconds becoming an absolute
expiresAt when truthy, the space-delimited scope split into a list), and,
when a refresh_token field is present, a paired refresh-type token
cross-linked with the bearer via linkedToken.  Fresh identifiers for the
two documents are passed in; nothing is persisted here. -/
def fromFormalToken (newAccessId newRefreshId : Nat) (now : Int)
    (ft : FormalAccessToken) (user : Option Nat) (client : Client)
    (role : ClientRole) : Token × Option Token :=
  let scopeList : List String :=
    match ft.scope with
    | some s => if s = "" then [] else (splitOnChar ' ' s.data).map String.mk
    | none => []
  let accessToken : Token :=
    { id := newAccessId
      tokenType := TokenType.bearer
      token := ft.access_token
      linkedToken := none
      expiresAt :=
        match ft.expires_in with
        | some n => if n = 0 then none else some (now + n * 1000)
        | none => none
      scope := scopeList
      user := user
      client := client.id
      clientRole := role
      clientName := some client.name }
  match ft.refresh_token with
  | some rt =>
    let refreshTok : Token :=
      { id := newRefreshId
        tokenType := TokenType.refresh_token
        token := rt
        linkedToken := some newAccessId
        expiresAt := none
        scope := scopeList
        user := user
        client := client.id
        clientRole := role
        clientName := some client.name }
    ({ accessToken with linkedToken := some newRefreshId }, some refreshTok)
  | none => (accessToken, none)

/-- A store operation issued by the refresh flow, in the order the source
issues it: a document save (insert-or-update plus the post-save hook) or a
document removal by identifier. -/
inductive StoreOp
  | save (t : Token)
  | removeTok (id : Nat)
deriving DecidableEq, Repr

/-- Resolution of the underlying refresh token at the top of
accessTokenFromRefresh (src/unnamed/part_001 line 179): the token itself
when it is refresh-type, otherwise the record its linkedToken points to. -/
def resolveRefreshTok (findTok : Nat → Option Token) (self : Token) :
    Option Token :=
  if self.tokenType = TokenType.refresh_token then some self
  else
    match self.linkedToken with
    | some lid => findTok lid
    | none => none

/-- The bearer token the consumer-role refresh branch mints locally
(src/unnamed/part_001 lines 226-236): a fresh nanoid token string, expiry
now + config.expireTokenIn, linkedToken set to the identifier of the token
refresh was invoked on (self._id, not the resolved refresh token), and
scope, client, user and clientName copied from that token. -/
def consumerMintedToken (cfg : Config) (now : Int) (newId : Nat)
    (str : String) (self : Token) : Token :=
  { id := newId
    tokenType := TokenType.bearer
    token := str
    linkedToken := some self.id
    expiresAt := some (now + cfg.expireTokenIn)
    scope := self.scope
    user := self.user
    client := self.client
    clientRole := ClientRole.consumer
    clientName := self.clientName }

/-- accessTokenFromRefresh (src/unnamed/part_001 lines 177-243).  The
upstream exchange is modelled by the upstream argument: none stands for a
non-200 response from the token endpoint (the source then returns null
with no store mutation), some ft for a 200 whose JSON body parsed to ft.
The returned operation list records the store mutations the source issues,
in source order: on provider success the new access token's save (the
source starts it without awaiting), then - only when a new refresh token
was minted - the removal of the record refresh was invoked on (self), then
the new refresh token's save; on consumer refresh, the single save of the
locally minted bearer.  Fresh identifiers and the nanoid string are passed
in. -/
def accessTokenFromRefresh (cfg : Config) (now : Int)
    (findTok : Nat → Option Token) (findCli : Nat → Option Client)
    (upstream : Option FormalAccessToken) (ids : Nat × Nat) (str : String)
    (self : Token) : Option Token × List StoreOp :=
  match resolveRefreshTok findTok self with
  | none => (none, [])
  | some _refreshTok =>
    if self.clientRole = ClientRole.provider then
      match findCli self.client with
      | none => (none, [])
      | some client =>
        match upstream with
        | none => (none, [])
        | some ft =>
          let minted := fromFormalToken ids.1 ids.2 now ft self.user client
            ClientRole.provider
          match minted.2 with
          | some newRefreshTok =>
            (some minted.1,
              [StoreOp.save minted.1, StoreOp.removeTok self.id,
                StoreOp.save newRefreshTok])
          | none => (some minted.1, [StoreOp.save minted.1])
    else if self.clientRole = ClientRole.consumer then
      let minted := consumerMintedToken cfg now ids.1 str self
      (some minted, [StoreOp.save minted])
    else (none, [])

/-- Apply one store operation to the store. -/
def applyOp (store : List Token) : StoreOp → List Token
  | StoreOp.save t => saveToken t store
  | StoreOp.removeTok i => store.filter (fun t => decide (t.id ≠ i))

/-- Apply a sequence of store operations left to right. -/
def applyOps (store : List Token) (ops : List StoreOp) : List Token :=
  ops.foldl applyOp store

/-- The number of bearer tokens in the store whose linkedToken is the
given refresh-token identifier. -/
def countBearersLinked (r : Nat) (store : List Token) : Nat :=
  (store.filter (fun t =>
    decide (t.tokenType = TokenType.bearer ∧ t.linkedToken = some r))).length

/-- One sequential consumer-role refresh of the lineage: invoke
accessTokenFromRefresh on the refresh token and apply the store operations
it issues; newId is the fresh identifier minted for the new bearer. -/
def consumerRefreshStep (cfg : Config) (now : Int) (str : String)
    (newId : Nat) (r : Token) (store : List Token) : List Token :=
  applyOps store
    (accessTokenFromRefresh cfg now (fun i => store.find? (fun t => decide (t.id = i)))
      (fun _ => none) none (newId, newId) str r).2

/-- N sequential refreshes of the lineage of refresh token r, minting a
fresh identifier (the counter) for each new bearer. -/
def refreshN (cfg : Config) (now : Int) (str : String) (r : Token) :
    Nat → Nat → List Token → List Token
  | 0, _, store => store
  | n + 1, fresh, store =>
    refreshN cfg now str r n (fresh + 1)
      (consumerRefreshStep cfg now str fresh r store)

/-- Claim-order predicate on an operation sequence: every save precedes
every removal (newly minted tokens are persisted first, and only then are
old records deleted). -/
def savesThenRemoves : List StoreOp → Bool
  | [] => true
  | StoreOp.save _ :: rest => savesThenRemoves rest
  | StoreOp.removeTok _ :: rest =>
    rest.all (fun op => match op with
      | StoreOp.save _ => false
      | StoreOp.removeTok _ => true) && savesThenRemoves rest

/-- The zero-grace TTL sweep declared by AccessToken.collection.createIndex
on expiresAt with expireAfterSeconds 0 (src/unnamed/part_001 lines
326-330): documents whose expiresAt is at or before the current instant
are removed; documents without expiresAt are untouched. -/
def ttlSweep (now : Int) (store : List Token) : List Token :=
  store.filter (fun t =>
    match t.expiresAt with
    | none => true
    | some e => decide (now < e))

/-! ## The HTTP resolver middleware -/

/-- A resolved location (only the fields the middleware claim needs). -/
structure Location where
  href : String
deriving DecidableEq, Repr

/-- The inbound request fields ResolverMiddleware reads.  The
x-forwarded-proto header is optional; a present-but-empty header is falsy
in the source and falls back to req.protocol. -/
structure HttpRequest where
  originalUrl : String
  protocol : String
  xForwardedProto : Option String
  host : String
deriving DecidableEq, Repr

/-- Outcome of the middleware on a request: pass the request through to
the next handler unmodified, or intercept it and dispatch the resolved
location. -/
inductive MiddlewareResult
  | passThrough
  | intercepted (loc : Location)
deriving DecidableEq, Repr

/-- The locator the middleware builds
(src/attic-server/src/Web/ResolverMiddleware.ts line 62): effective scheme
(the x-forwarded-proto header when truthy, else req.protocol), then
colon-slash-slash, the host and the original URL. -/
def buildHref (req : HttpRequest) : String :=
  (match req.xForwardedProto with
    | some p => if p = "" then req.protocol else p
    | none => req.protocol) ++ "://" ++ req.host ++ req.originalUrl

/-- ResolverMiddleware (src/attic-server/src/Web/ResolverMiddleware.ts
lines 58-88): requests whose originalUrl starts with the five characters
of the auth prefix pass through; otherwise the locator is resolved, a
null-or-empty resolution (modelled as none) passes through, and a resolved
location is intercepted and dispatched.  The substr comparison is embedded
as a take of five characters. -/
def resolverMiddleware (resolve : String → Option Location)
    (req : HttpRequest) : MiddlewareResult :=
  if req.originalUrl.data.take 5 = "/auth".data then
    MiddlewareResult.passThrough
  else
    match resolve (buildHref req) with
    | none => MiddlewareResult.passThrough
    | some loc => MiddlewareResult.intercepted loc

/-! ## Concrete fixtures used by the per-claim theorems -/

/-- Default configuration used by the concrete theorems: a one-hour access
TTL and a two-hour refresh TTL, in milliseconds. -/
def cfg0 : Config :=
  { expireTokenIn := 3600000, expireRefreshTokenIn := 7200000 }

/-- A user with no scopes and no tokens. -/
def emptyUser : UserRec := { id := 1, scope := [], tokens := [] }

/-- A consumer client with default (undefined) expiry overrides. -/
def clientDefaults : Client :=
  { id := 2, name := "svc", scope := [],
    expireAccessTokenIn := JSNum.undef, expireRefreshTokenIn := JSNum.undef,
    redirectUri := "", tokenUri := "", clientId := "", clientSecret := "" }

/-- The same client with the access-token expiry explicitly disabled (the
null sentinel). -/
def clientNullExpiry : Client :=
  { clientDefaults with expireAccessTokenIn := JSNum.nul }

/-! ## Claim C3: scope matcher semantics -/

/-- C3: the scope matcher returns true iff some granted entry, compiled to
a regular expression (slash-prefixed entries parsed as pattern and flags,
other entries compiled directly), tests positive against the requested
scope; false when no entry matches or the list is empty; and the three
fixed literal cases behave as the specification states. -/
theorem c3_scope_matcher_semantics :
    (∀ (granted : List String) (requested : String),
        isAuthorizedToDo granted requested = true ↔
          ∃ g, g ∈ granted ∧ regexTest (compileScope g) requested = true)
    ∧ isAuthorizedToDo ["read"] "read" = true
    ∧ isAuthorizedToDo ["read"] "write" = false
    ∧ isAuthorizedToDo ["/^admin\\./i"] "Admin.users" = true
    ∧ isAuthorizedToDo [] "read" = false := by
  refine ⟨?_, by decide, by decide, by decide, by decide⟩
  intro granted requested
  simp [isAuthorizedToDo, List.any_eq_true]

/-! ## Claim C10: literal scopes are unanchored regexes -/

/-- C10: in the effective scope matcher every granted entry not beginning
with a slash is compiled directly as an unanchored regex, so any requested
scope in which the pattern matches anywhere is accepted: granted read
authorizes requested readonly and unread, a dot in a literal entry matches
an arbitrary character, and the shadowed earlier exact-membership
definition would have rejected readonly. -/
theorem c10_literal_scopes_unanchored :
    (∀ (granted : List String) (g : String) (requested : String),
        g ∈ granted → g.data.head? ≠ some '/' →
        regexTest { items := parsePattern g.data, ignoreCase := false }
          requested = true →
        isAuthorizedToDo granted requested = true)
    ∧ isAuthorizedToDo ["read"] "readonly" = true
    ∧ isAuthorizedToDo ["read"] "unread" = true
    ∧ isAuthorizedToDo ["a.c"] "axc" = true
    ∧ isAuthorizedToDoEarlier ["read"] "readonly" = false := by
  refine ⟨?_, by decide, by decide, by decide, by decide⟩
  intro granted g requested hg hslash htest
  have hc : compileScope g =
      { items := parsePattern g.data, ignoreCase := false } := by
    unfold compileScope
    rw [if_neg hslash]
  rw [isAuthorizedToDo, List.any_eq_true]
  exact ⟨g, hg, by rw [hc]; exact htest⟩

/-- Witness for C10 at a concrete input: the literal granted scope read,
which does not begin with a slash and matches inside readonly, authorizes
the requested scope readonly. -/
theorem c10_witness : isAuthorizedToDo ["read"] "readonly" = true :=
  c10_literal_scopes_unanchored.1 ["read"] "read" "readonly" (by decide)
    (by decide) (by decide)

/-! ## Claim C9: resolver middleware pass-through -/

/-- C9: the resolver middleware passes a request through unmodified exactly
when its path begins with the excluded auth prefix or when no resolver
strategy claims the locator built from the effective scheme, host and
path; only resolved non-auth requests are intercepted. -/
theorem c9_middleware_passthrough :
    ∀ (resolve : String → Option Location) (req : HttpRequest),
      (resolverMiddleware resolve req = MiddlewareResult.passThrough ↔
        (req.originalUrl.data.take 5 = "/auth".data ∨
          resolve (buildHref req) = none))
      ∧ (∀ loc : Location,
          resolverMiddleware resolve req = MiddlewareResult.intercepted loc ↔
            (¬ req.originalUrl.data.take 5 = "/auth".data ∧
              resolve (buildHref req) = some loc)) := by
  intro resolve req
  unfold resolverMiddleware
  by_cases h : req.originalUrl.data.take 5 = "/auth".data
  · simp [h]
  · cases hr : resolve (buildHref req) <;> simp [h, hr]

/-! ## Claim C1: the pre-save hook never assigns expiresAt -/

/-- A bearer token with no owning user, used for the expiry claims. -/
def tokC1 : Token :=
  { id := 7, tokenType := TokenType.bearer, token := "tk", linkedToken := none,
    expiresAt := none, scope := [], user := none, client := 2,
    clientRole := ClientRole.consumer, clientName := none }

/-- C1 (code bug, evaluated at the failing input): saving a bearer token
whose client has the default (undefined) expiry override leaves expiresAt
unset, even though the hook computes now plus the configured default
(3600000 here) - the source returns that number from the async pre-save
middleware instead of assigning it, and mongoose discards the resolved
value; with the null sentinel expiresAt is likewise absent. -/
theorem c1_presave_expiry_discarded :
    ((preSave cfg0 clientDefaults (fun _ => emptyUser) tokC1).toOption.map
        Token.expiresAt) = some none
    ∧ preSaveComputedExpiry cfg0 clientDefaults tokC1 0 = some 3600000
    ∧ ((preSave cfg0 clientNullExpiry (fun _ => emptyUser) tokC1).toOption.map
        Token.expiresAt) = some none := by
  refine ⟨by decide, by decide, by decide⟩

/-! ## Claim C2: formalScope does not strip the client-name prefix -/

/-- A provider-role token requesting the scope read, owned by the client
named svc. -/
def tokC2 : Token :=
  { id := 8, tokenType := TokenType.bearer, token := "tk2", linkedToken := none,
    expiresAt := none, scope := ["read"], user := none, client := 2,
    clientRole := ClientRole.provider, clientName := none }

/-- C2 (code bug, evaluated at the failing input): saving a provider-role
token with scope read under the client named svc stores the namespaced
scope svc.read, but reading formalScope back yields svc.read, not read:
the stripping regex is the dollar sign followed by the client name, an
end-of-input anchor followed by characters, which can never match, so
nothing is removed. -/
theorem c2_formalscope_roundtrip_fails :
    ((preSave cfg0 clientDefaults (fun _ => emptyUser) tokC2).toOption.map
        Token.scope) = some ["svc.read"]
    ∧ ((preSave cfg0 clientDefaults (fun _ => emptyUser) tokC2).toOption.map
        formalScope) = some ["svc.read"]
    ∧ ¬ ((preSave cfg0 clientDefaults (fun _ => emptyUser) tokC2).toOption.map
        formalScope) = some ["read"] := by
  refine ⟨by decide, by decide, by decide⟩

/-! ## Claim C7: the consumer scope re-validation is skipped -/

/-- A consumer-role bearer token owned by user 1 requesting the scope
billing.write, which neither the user nor the client grants and which no
existing token of the user satisfies. -/
def tokC7 : Token :=
  { id := 9, tokenType := TokenType.bearer, token := "tk7", linkedToken := none,
    expiresAt := none, scope := ["billing.write"], user := some 1, client := 2,
    clientRole := ClientRole.consumer, clientName := none }

/-- Project the scope carried by a CouldNotFindTokenForScopeError result. -/
def scopeErrorOf : Except SaveError Token → Option String
  | Except.error (SaveError.couldNotFindTokenForScope s) => some s
  | _ => none

/-- C7 (code bug, evaluated at the failing input): with the client's
expiry override at its default (undefined, not null) the expiry branch of
the pre-save hook returns early, so the consumer-role scope re-validation
never runs and the save of a token for the unsatisfiable scope
billing.write succeeds; only when the client disables expiry with the null
sentinel does the hook reach the check and abort with
CouldNotFindTokenForScopeError, and the user indeed holds no token
satisfying that scope. -/
theorem c7_consumer_check_skipped :
    ((preSave cfg0 clientDefaults (fun _ => emptyUser) tokC7).toOption.map
        Token.id) = some 9
    ∧ scopeErrorOf (preSave cfg0 clientNullExpiry (fun _ => emptyUser) tokC7)
        = some "billing.write"
    ∧ getAccessTokensForScope emptyUser ["billing.write"]
        = [("billing.write", none)] := by
  refine ⟨by decide, by decide, by decide⟩

/-! ## Claim C8: expired tokens still pass the scope check -/

/-- A bearer token whose expiresAt (epoch instant 0) lies in the past at
the check instant 1000. -/
def tokC8 : Token :=
  { id := 10, tokenType := TokenType.bearer, token := "tk8", linkedToken := none,
    expiresAt := some 0, scope := ["read"], user := some 1, client := 2,
    clientRole := ClientRole.consumer, clientName := some "svc" }

/-- C8 (code bug, evaluated at the failing input): a token already past
its expiresAt - and therefore removed by the zero-grace TTL sweep - is
still accepted by the per-token scope check, which never consults
expiresAt. -/
theorem c8_expired_token_accepted :
    tokC8.expiresAt = some 0
    ∧ ttlSweep 1000 [tokC8] = []
    ∧ isAuthorizedToDo tokC8.scope "read" = true := by
  refine ⟨by decide, by decide, by decide⟩

/-! ## Claim C5: ordering of the provider-role replacement -/

/-- A provider-role configuration for the upstream exchange fixtures. -/
def clientProvider : Client :=
  { id := 2, name := "svc", scope := [],
    expireAccessTokenIn := JSNum.undef, expireRefreshTokenIn := JSNum.undef,
    redirectUri := "https://cb", tokenUri := "https://up/token",
    clientId := "cid", clientSecret := "sec" }

/-- The provider-role refresh token of a lineage, on which refresh is
invoked. -/
def refC5 : Token :=
  { id := 3, tokenType := TokenType.refresh_token, token := "r1",
    linkedToken := some 4, expiresAt := none, scope := ["read"], user := some 1,
    client := 2, clientRole := ClientRole.provider, clientName := some "svc" }

/-- A successful upstream exchange response that mints a new refresh
token. -/
def upstreamC5 : FormalAccessToken :=
  { access_token := "a2", refresh_token := some "r2", scope := some "read",
    expires_in := some 60, token_type := "bearer" }

/-- The store operations the provider-role refresh issues on that
upstream success. -/
def opsC5 : List StoreOp :=
  (accessTokenFromRefresh cfg0 0 (fun _ => none) (fun _ => some clientProvider)
    (some upstreamC5) (20, 21) "n" refC5).2

/-- C5 counterexample: in the operation sequence of a successful
provider-role refresh that mints a new refresh token, a save follows a
removal - the old record is deleted before the newly minted refresh token
is persisted - so the claimed persist-first-then-delete ordering is false
at this concrete input. -/
theorem c5_counterexample_persist_order : savesThenRemoves opsC5 = false := by
  decide

/-- A placeholder token for Option.getD in statements whose hypotheses
guarantee the option is populated. -/
def dummyToken : Token :=
  { id := 0, tokenType := TokenType.bearer, token := "", linkedToken := none,
    expiresAt := none, scope := [], user := none, client := 0,
    clientRole := ClientRole.consumer, clientName := none }

/-- C5 amended: on upstream failure the provider-role refresh issues no
store operation (all-or-nothing on failure holds); on upstream success
that mints a new refresh token the operations are issued in the exact
order save-new-access (initiated, not awaited), remove the record refresh
was invoked on, save the new refresh token - so the old record is deleted
before, not after, the new refresh token is persisted, and at no point do
two live refresh tokens of the lineage coexist. -/
theorem c5_amended_replace_order (cfg : Config) (now : Int)
    (findTok : Nat → Option Token) (findCli : Nat → Option Client)
    (ids : Nat × Nat) (str : String) (self : Token) (client : Client)
    (ft : FormalAccessToken) (rt : String)
    (h1 : self.tokenType = TokenType.refresh_token)
    (h2 : self.clientRole = ClientRole.provider)
    (h3 : findCli self.client = some client)
    (h4 : ft.refresh_token = some rt) :
    accessTokenFromRefresh cfg now findTok findCli none ids str self = (none, [])
    ∧ (accessTokenFromRefresh cfg now findTok findCli (some ft) ids str
        self).2 =
      [StoreOp.save
          (fromFormalToken ids.1 ids.2 now ft self.user client
            ClientRole.provider).1,
        StoreOp.removeTok self.id,
        StoreOp.save
          ((fromFormalToken ids.1 ids.2 now ft self.user client
            ClientRole.provider).2.getD dummyToken)] := by
  constructor
  · simp [accessTokenFromRefresh, resolveRefreshTok, h1, h2, h3]
  · have hsnd : ∃ rtok,
        (fromFormalToken ids.1 ids.2 now ft self.user client
          ClientRole.provider).2 = some rtok := by
      unfold fromFormalToken
      rw [h4]
      exact ⟨_, rfl⟩
    obtain ⟨rtok, hrtok⟩ := hsnd
    simp [accessTokenFromRefresh, resolveRefreshTok, h1, h2, h3, hrtok]

/-- Witness for C5 amended at the concrete lineage fixture: no operation
on upstream failure, and the save-remove-save order on upstream success. -/
theorem c5_amended_witness :
    accessTokenFromRefresh cfg0 0 (fun _ => none)
      (fun _ => some clientProvider) none (20, 21) "n" refC5 = (none, []) :=
  (c5_amended_replace_order cfg0 0 (fun _ => none)
    (fun _ => some clientProvider) (20, 21) "n" refC5 clientProvider
    upstreamC5 "r2" rfl rfl rfl rfl).1

/-! ## Claim C6: the consumer-role refresh links to self -/

/-- The refresh token of a consumer-role lineage (identifier 3), linked to
the bearer with identifier 5. -/
def refC6 : Token :=
  { id := 3, tokenType := TokenType.refresh_token, token := "r1",
    linkedToken := some 5, expiresAt := none, scope := ["s"], user := some 1,
    client := 2, clientRole := ClientRole.consumer, clientName := some "svc" }

/-- The live bearer of that lineage (identifier 5, linkedToken 3), on
which refresh is invoked. -/
def bearerC6 : Token :=
  { id := 5, tokenType := TokenType.bearer, token := "b1",
    linkedToken := some 3, expiresAt := none, scope := ["s"], user := some 1,
    client := 2, clientRole := ClientRole.consumer, clientName := some "svc" }

/-- The result of invoking the consumer-role refresh on the bearer. -/
def resC6 : Option Token × List StoreOp :=
  accessTokenFromRefresh cfg0 0 (fun i => if i = 3 then some refC6 else none)
    (fun _ => none) none (30, 31) "nb" bearerC6

/-- C6 counterexample: refreshing the consumer-role bearer token (id 5,
whose lineage refresh token has id 3) mints a bearer whose linkedToken is
5, the identifier of the token refresh was invoked on, not 3, the
identifier of the lineage's refresh token - refuting the claim that the
new token is linked to the refresh token of the lineage. -/
theorem c6_counterexample_links_to_self :
    resC6.1.map Token.linkedToken = some (some bearerC6.id)
    ∧ ¬ resC6.1.map Token.linkedToken = some (some refC6.id) := by
  refine ⟨by decide, by decide⟩

/-- C6 amended: for every consumer-role token t whose underlying refresh
token resolves, refresh mints a bearer locally with no upstream exchange,
copying scope, client, user and clientName from t, setting expiresAt to
now plus the configured default, setting linkedToken to t's own identifier
(which equals the lineage's refresh-token identifier exactly when refresh
is invoked on the refresh token itself), and issues exactly the save of
that bearer (whose post-save hook then prunes bearers sharing its
linkedToken). -/
theorem c6_amended_consumer_mint (cfg : Config) (now : Int)
    (findTok : Nat → Option Token) (findCli : Nat → Option Client)
    (upstream : Option FormalAccessToken) (ids : Nat × Nat) (str : String)
    (self : Token)
    (h1 : self.clientRole = ClientRole.consumer)
    (h2 : (resolveRefreshTok findTok self).isSome = true) :
    accessTokenFromRefresh cfg now findTok findCli upstream ids str self
      = (some (consumerMintedToken cfg now ids.1 str self),
          [StoreOp.save (consumerMintedToken cfg now ids.1 str self)])
    ∧ (consumerMintedToken cfg now ids.1 str self).scope = self.scope
    ∧ (consumerMintedToken cfg now ids.1 str self).client = self.client
    ∧ (consumerMintedToken cfg now ids.1 str self).user = self.user
    ∧ (consumerMintedToken cfg now ids.1 str self).clientName = self.clientName
    ∧ (consumerMintedToken cfg now ids.1 str self).linkedToken = some self.id
    ∧ (consumerMintedToken cfg now ids.1 str self).expiresAt
        = some (now + cfg.expireTokenIn)
    ∧ (consumerMintedToken cfg now ids.1 str self).tokenType
        = TokenType.bearer := by
  refine ⟨?_, rfl, rfl, rfl, rfl, rfl, rfl, rfl⟩
  obtain ⟨rtok, hrtok⟩ := Option.isSome_iff_exists.mp h2
  simp [accessTokenFromRefresh, hrtok, h1]

/-- Witness for C6 amended: invoking refresh on the consumer-role refresh
token itself yields exactly the save of the locally minted bearer. -/
theorem c6_amended_witness :
    accessTokenFromRefresh cfg0 0 (fun _ => none) (fun _ => none) none
        (30, 31) "nb" refC6
      = (some (consumerMintedToken cfg0 0 30 "nb" refC6),
          [StoreOp.save (consumerMintedToken cfg0 0 30 "nb" refC6)]) :=
  (c6_amended_consumer_mint cfg0 0 (fun _ => none) (fun _ => none) none
    (30, 31) "nb" refC6 rfl (by decide)).1

/-! ## Claim C4: at most one live bearer per refresh token -/

/-- Saving a document whose identifier is fresh appends it to the store. -/
theorem upsert_fresh (b : Token) (store : List Token)
    (hfresh : ∀ t ∈ store, t.id ≠ b.id) :
    upsert b store = store ++ [b] := by
  have h : store.any (fun t => decide (t.id = b.id)) = false := by
    rw [List.any_eq_false]
    intro t ht
    simpa using hfresh t ht
  simp [upsert, h]

/-- After the post-save prune of a freshly saved bearer, no pre-existing
token of the store still matches the pruned filter and the outer
bearer-of-this-lineage filter simultaneously. -/
theorem prune_filter_nil (dId : Nat) (lk : Option Nat) (r : Nat)
    (store : List Token) (hlk : lk = some r)
    (hfresh : ∀ t ∈ store, t.id ≠ dId) :
    ((store.filter (fun t =>
        decide (¬ (t.tokenType = TokenType.bearer ∧
          t.linkedToken = lk ∧ t.id ≠ dId)))).filter
      (fun t => decide (t.tokenType = TokenType.bearer ∧
        t.linkedToken = some r))) = [] := by
  induction store with
  | nil => rfl
  | cons hd tl ih =>
    have hne : hd.id ≠ dId := hfresh hd (List.mem_cons_self hd tl)
    have ihh := ih (fun t ht => hfresh t (List.mem_cons_of_mem hd ht))
    by_cases hbear : hd.tokenType = TokenType.bearer ∧ hd.linkedToken = lk
    · have hinner : (decide (¬ (hd.tokenType = TokenType.bearer ∧
          hd.linkedToken = lk ∧ hd.id ≠ dId))) = false := by
        simp [hbear.1, hbear.2, hne]
      simp only [List.filter, hinner]
      exact ihh
    · by_cases hin : (decide (¬ (hd.tokenType = TokenType.bearer ∧
          hd.linkedToken = lk ∧ hd.id ≠ dId))) = true
      · have houter : (decide (hd.tokenType = TokenType.bearer ∧
            hd.linkedToken = some r)) = false := by
          rw [decide_eq_false_iff_not]
          intro hc
          exact hbear ⟨hc.1, by rw [hc.2, hlk]⟩
        simp only [List.filter, hin, houter]
        exact ihh
      · have hin2 : (decide (¬ (hd.tokenType = TokenType.bearer ∧
            hd.linkedToken = lk ∧ hd.id ≠ dId))) = false := by
          revert hin
          cases (decide (¬ (hd.tokenType = TokenType.bearer ∧
            hd.linkedToken = lk ∧ hd.id ≠ dId))) <;> simp
        simp only [List.filter, hin2]
        exact ihh

/-- Saving a fresh bearer token linked to refresh token r leaves exactly
one bearer with that linkedToken in the store: the post-save hook deletes
every other one. -/
theorem countBearersLinked_saveToken (b : Token) (store : List Token) (r : Nat)
    (hb : b.tokenType = TokenType.bearer) (hl : b.linkedToken = some r)
    (hfresh : ∀ t ∈ store, t.id ≠ b.id) :
    countBearersLinked r (saveToken b store) = 1 := by
  have hup := upsert_fresh b store hfresh
  have hlk : b.linkedToken ≠ none := by rw [hl]; simp
  unfold countBearersLinked saveToken postSave
  rw [hup, if_pos ⟨hb, hlk⟩, List.filter_append, List.filter_append]
  rw [prune_filter_nil b.id b.linkedToken r store hl hfresh]
  have hPb : (decide (¬ (b.tokenType = TokenType.bearer ∧
      b.linkedToken = b.linkedToken ∧ b.id ≠ b.id))) = true := by simp
  have hQb : (decide (b.tokenType = TokenType.bearer ∧
      b.linkedToken = some r)) = true := by simp [hb, hl]
  simp [List.filter, hPb, hQb, hb, hl]

/-- Every token surviving a save was already in the store or is the saved
document itself. -/
theorem mem_saveToken {t b : Token} {store : List Token}
    (ht : t ∈ saveToken b store) : t ∈ store ∨ t = b := by
  unfold saveToken postSave at ht
  have hup : t ∈ upsert b store := by
    by_cases h : b.tokenType = TokenType.bearer ∧ b.linkedToken ≠ none
    · rw [if_pos h] at ht
      exact (List.mem_filter.mp ht).1
    · rw [if_neg h] at ht
      exact ht
  unfold upsert at hup
  by_cases h2 : store.any (fun x => decide (x.id = b.id)) = true
  · rw [if_pos h2] at hup
    obtain ⟨a, ha, hae⟩ := List.mem_map.mp hup
    by_cases h3 : a.id = b.id
    · right
      rw [← hae, if_pos h3]
    · left
      rw [← hae, if_neg h3]
      exact ha
  · rw [if_neg h2] at hup
    rcases List.mem_append.mp hup with h | h
    · exact Or.inl h
    · right
      simpa using h

/-- One consumer-role refresh invoked on the refresh token reduces to a
save of the locally minted bearer against the store. -/
theorem consumerRefreshStep_eq (cfg : Config) (now : Int) (str : String)
    (newId : Nat) (r : Token) (store : List Token)
    (htype : r.tokenType = TokenType.refresh_token)
    (hrole : r.clientRole = ClientRole.consumer) :
    consumerRefreshStep cfg now str newId r store
      = saveToken (consumerMintedToken cfg now newId str r) store := by
  unfold consumerRefreshStep accessTokenFromRefresh resolveRefreshTok
  simp [htype, hrole, applyOps, applyOp]

/-- After one consumer-role refresh with a fresh identifier, exactly one
bearer of the lineage exists. -/
theorem consumerRefreshStep_count (cfg : Config) (now : Int) (str : String)
    (newId : Nat) (r : Token) (store : List Token)
    (htype : r.tokenType = TokenType.refresh_token)
    (hrole : r.clientRole = ClientRole.consumer)
    (hfresh : ∀ t ∈ store, t.id ≠ newId) :
    countBearersLinked r.id (consumerRefreshStep cfg now str newId r store)
      = 1 := by
  rw [consumerRefreshStep_eq cfg now str newId r store htype hrole]
  exact countBearersLinked_saveToken (consumerMintedToken cfg now newId str r)
    store r.id rfl rfl
    (fun t ht => hfresh t ht)

/-- One refresh step keeps every identifier below the advanced counter. -/
theorem consumerRefreshStep_bound (cfg : Config) (now : Int) (str : String)
    (fresh : Nat) (r : Token) (store : List Token)
    (htype : r.tokenType = TokenType.refresh_token)
    (hrole : r.clientRole = ClientRole.consumer)
    (hbound : ∀ t ∈ store, t.id < fresh) :
    ∀ t ∈ consumerRefreshStep cfg now str fresh r store, t.id < fresh + 1 := by
  rw [consumerRefreshStep_eq cfg now str fresh r store htype hrole]
  intro t ht
  rcases mem_saveToken ht with h | h
  · exact Nat.lt_succ_of_lt (hbound t h)
  · rw [h]
    exact Nat.lt_succ_self fresh

/-- After any positive number of sequential consumer-role refreshes of the
lineage, exactly one bearer with the lineage's refresh-token identifier
as linkedToken exists in the store. -/
theorem refreshN_count (cfg : Config) (now : Int) (str : String) (r : Token)
    (htype : r.tokenType = TokenType.refresh_token)
    (hrole : r.clientRole = ClientRole.consumer) :
    ∀ (N fresh : Nat) (store : List Token),
      (∀ t ∈ store, t.id < fresh) → 1 ≤ N →
      countBearersLinked r.id (refreshN cfg now str r N fresh store) = 1 := by
  intro N
  induction N with
  | zero =>
    intro fresh store _ hN
    omega
  | succ n ih =>
    intro fresh store hbound _
    show countBearersLinked r.id
      (refreshN cfg now str r n (fresh + 1)
        (consumerRefreshStep cfg now str fresh r store)) = 1
    cases n with
    | zero =>
      show countBearersLinked r.id
        (consumerRefreshStep cfg now str fresh r store) = 1
      exact consumerRefreshStep_count cfg now str fresh r store htype hrole
        (fun t ht => Nat.ne_of_lt (hbound t ht))
    | succ m =>
      exact ih (fresh + 1) (consumerRefreshStep cfg now str fresh r store)
        (consumerRefreshStep_bound cfg now str fresh r store htype hrole hbound)
        (Nat.succ_le_succ (Nat.zero_le m))

/-- One provider-role refresh of the lineage: invoke accessTokenFromRefresh
on the current refresh token with a 200 upstream response ft and apply the
store operations it issues (save the new access token, remove the record
refresh was invoked on, save the new refresh token); ids are the two fresh
identifiers minted for the new pair. -/
def providerRefreshStep (cfg : Config) (now : Int) (client : Client)
    (ft : FormalAccessToken) (ids : Nat × Nat) (r : Token)
    (store : List Token) : List Token :=
  applyOps store
    (accessTokenFromRefresh cfg now
      (fun i => store.find? (fun t => decide (t.id = i)))
      (fun _ => some client) (some ft) ids "" r).2

/-- The lineage's refresh token after one provider-role refresh: the newly
minted refresh token when the upstream response carried one (replace on
success), otherwise still the old one. -/
def nextLineageRefresh (now : Int) (client : Client) (ft : FormalAccessToken)
    (ids : Nat × Nat) (r : Token) : Token :=
  match (fromFormalToken ids.1 ids.2 now ft r.user client
      ClientRole.provider).2 with
  | some newRef => newRef
  | none => r

/-- N sequential provider-role refreshes of the lineage, one successful
upstream response per refresh, minting two fresh identifiers per step;
returns the lineage's final refresh token together with the final store. -/
def providerRefreshN (cfg : Config) (now : Int) (client : Client) :
    List FormalAccessToken → Nat → Token → List Token → Token × List Token
  | [], _, r, store => (r, store)
  | ft :: fts, fresh, r, store =>
    providerRefreshN cfg now client fts (fresh + 2)
      (nextLineageRefresh now client ft (fresh, fresh + 1) r)
      (providerRefreshStep cfg now client ft (fresh, fresh + 1) r store)

/-- The fields of the pair fromFormalToken builds when the upstream
response carries a refresh token: the bearer gets the first fresh
identifier and is cross-linked to the refresh token, which gets the
second. -/
theorem fromFormalToken_refresh_case (a b : Nat) (now : Int)
    (ft : FormalAccessToken) (user : Option Nat) (client : Client)
    (role : ClientRole) (rt : String) (hft : ft.refresh_token = some rt) :
    (fromFormalToken a b now ft user client role).1.id = a
    ∧ (fromFormalToken a b now ft user client role).1.tokenType
        = TokenType.bearer
    ∧ (fromFormalToken a b now ft user client role).1.linkedToken = some b
    ∧ ∃ R, (fromFormalToken a b now ft user client role).2 = some R
        ∧ R.id = b ∧ R.tokenType = TokenType.refresh_token
        ∧ R.clientRole = role ∧ R.client = client.id ∧ R.user = user := by
  unfold fromFormalToken
  rw [hft]
  exact ⟨rfl, rfl, rfl, ⟨_, rfl, rfl, rfl, rfl, rfl, rfl⟩⟩

/-- Saving a fresh bearer leaves it as the only token matching the
bearer-of-this-lineage filter. -/
theorem filter_saveToken_eq (b : Token) (store : List Token) (r : Nat)
    (hb : b.tokenType = TokenType.bearer) (hl : b.linkedToken = some r)
    (hfresh : ∀ t ∈ store, t.id ≠ b.id) :
    (saveToken b store).filter
      (fun t => decide (t.tokenType = TokenType.bearer ∧
        t.linkedToken = some r)) = [b] := by
  have hup := upsert_fresh b store hfresh
  have hlk : b.linkedToken ≠ none := by rw [hl]; simp
  unfold saveToken postSave
  rw [hup, if_pos ⟨hb, hlk⟩, List.filter_append, List.filter_append]
  rw [prune_filter_nil b.id b.linkedToken r store hl hfresh]
  have hPb : (decide (¬ (b.tokenType = TokenType.bearer ∧
      b.linkedToken = b.linkedToken ∧ b.id ≠ b.id))) = true := by simp
  have hQb : (decide (b.tokenType = TokenType.bearer ∧
      b.linkedToken = some r)) = true := by simp [hb, hl]
  simp [List.filter, hPb, hQb, hb, hl]

/-- Removing elements by another predicate preserves a singleton filter
result whose element satisfies that predicate. -/
theorem filter_filter_singleton {α : Type} {Q P : α → Bool} {A : α} :
    ∀ {l : List α}, l.filter Q = [A] → P A = true →
      (l.filter P).filter Q = [A] := by
  intro l
  induction l with
  | nil =>
    intro h _
    simp at h
  | cons hd tl ih =>
    intro h hPA
    by_cases hQ : Q hd = true
    · rw [List.filter_cons_of_pos hQ] at h
      injection h with h1 h2
      have hPhd : P hd = true := by rw [h1]; exact hPA
      rw [List.filter_cons_of_pos hPhd, List.filter_cons_of_pos hQ]
      have h3 : (tl.filter P).filter Q = [] := by
        rw [List.filter_eq_nil_iff] at h2 ⊢
        intro a ha
        exact h2 a (List.mem_filter.mp ha).1
      rw [h3, h1]
    · rw [List.filter_cons_of_neg hQ] at h
      by_cases hP : P hd = true
      · rw [List.filter_cons_of_pos hP, List.filter_cons_of_neg hQ]
        exact ih h hPA
      · rw [List.filter_cons_of_neg hP]
        exact ih h hPA

/-- Saving a refresh-type token with a fresh identifier only appends it:
the post-save hook is a no-op for non-bearer documents. -/
theorem saveToken_refresh_append (b : Token) (l : List Token)
    (hb : b.tokenType = TokenType.refresh_token)
    (hfresh : ∀ t ∈ l, t.id ≠ b.id) :
    saveToken b l = l ++ [b] := by
  unfold saveToken postSave
  rw [upsert_fresh b l hfresh, if_neg]
  intro hcontra
  rw [hb] at hcontra
  exact absurd hcontra.1 (by decide)

/-- After the provider-role operation sequence save new bearer A, remove
the old record, save new refresh token R2 (all identifiers fresh and
distinct), exactly one bearer linked to R2 exists. -/
theorem count_after_provider_ops (A R2 : Token) (rid : Nat)
    (store : List Token)
    (hAb : A.tokenType = TokenType.bearer)
    (hAl : A.linkedToken = some R2.id)
    (hAfresh : ∀ t ∈ store, t.id ≠ A.id)
    (hrid : A.id ≠ rid)
    (hR2type : R2.tokenType = TokenType.refresh_token)
    (hR2fresh : ∀ t ∈ store, t.id ≠ R2.id)
    (hAR : A.id ≠ R2.id) :
    countBearersLinked R2.id
      (applyOps store
        [StoreOp.save A, StoreOp.removeTok rid, StoreOp.save R2]) = 1 := by
  have hQ1 := filter_saveToken_eq A store R2.id hAb hAl hAfresh
  have hQ2 : (((saveToken A store).filter
      (fun t => decide (t.id ≠ rid))).filter
      (fun t => decide (t.tokenType = TokenType.bearer ∧
        t.linkedToken = some R2.id))) = [A] :=
    filter_filter_singleton hQ1 (by simpa using hrid)
  have hmem : ∀ t ∈ (saveToken A store).filter
      (fun t => decide (t.id ≠ rid)), t.id ≠ R2.id := by
    intro t ht
    rcases mem_saveToken (List.mem_filter.mp ht).1 with h | h
    · exact hR2fresh t h
    · rw [h]
      exact hAR
  show countBearersLinked R2.id
    (saveToken R2 ((saveToken A store).filter
      (fun t => decide (t.id ≠ rid)))) = 1
  rw [saveToken_refresh_append R2 _ hR2type hmem]
  unfold countBearersLinked
  rw [List.filter_append, hQ2]
  have hR2no : ([R2].filter (fun t =>
      decide (t.tokenType = TokenType.bearer ∧
        t.linkedToken = some R2.id))) = [] := by
    simp [List.filter, hR2type]
  rw [hR2no]
  rfl

/-- One provider-role refresh with fresh identifiers leaves exactly one
bearer linked to the lineage's new refresh token. -/
theorem providerRefreshStep_count (cfg : Config) (now : Int) (client : Client)
    (ft : FormalAccessToken) (ids : Nat × Nat) (r : Token)
    (store : List Token) (rt : String)
    (htype : r.tokenType = TokenType.refresh_token)
    (hrole : r.clientRole = ClientRole.provider)
    (hft : ft.refresh_token = some rt)
    (hfresh1 : ∀ t ∈ store, t.id ≠ ids.1)
    (hfresh2 : ∀ t ∈ store, t.id ≠ ids.2)
    (hr1 : ids.1 ≠ r.id)
    (hne : ids.1 ≠ ids.2) :
    countBearersLinked (nextLineageRefresh now client ft ids r).id
      (providerRefreshStep cfg now client ft ids r store) = 1 := by
  obtain ⟨hAid, hAb, hAl, R2, hR2, hR2id, hR2t, _, _, _⟩ :=
    fromFormalToken_refresh_case ids.1 ids.2 now ft r.user client
      ClientRole.provider rt hft
  have hnext : nextLineageRefresh now client ft ids r = R2 := by
    unfold nextLineageRefresh
    rw [hR2]
  have hstep : providerRefreshStep cfg now client ft ids r store
      = applyOps store
          [StoreOp.save (fromFormalToken ids.1 ids.2 now ft r.user client
              ClientRole.provider).1,
            StoreOp.removeTok r.id, StoreOp.save R2] := by
    unfold providerRefreshStep accessTokenFromRefresh resolveRefreshTok
    simp [htype, hrole, hR2]
  rw [hnext, hstep]
  exact count_after_provider_ops _ R2 r.id store hAb
    (by rw [hR2id]; exact hAl)
    (fun t ht => by rw [hAid]; exact hfresh1 t ht)
    (by rw [hAid]; exact hr1)
    hR2t
    (fun t ht => by rw [hR2id]; exact hfresh2 t ht)
    (by rw [hAid, hR2id]; exact hne)

/-- Every token surviving the provider-role operation sequence was in the
store or is one of the two minted tokens. -/
theorem mem_provider_ops {t A R2 : Token} {rid : Nat} {store : List Token}
    (ht : t ∈ applyOps store
      [StoreOp.save A, StoreOp.removeTok rid, StoreOp.save R2]) :
    t ∈ store ∨ t = A ∨ t = R2 := by
  have ht1 : t ∈ saveToken R2 ((saveToken A store).filter
      (fun x => decide (x.id ≠ rid))) := ht
  rcases mem_saveToken ht1 with h | h
  · rcases mem_saveToken (List.mem_filter.mp h).1 with h3 | h3
    · exact Or.inl h3
    · exact Or.inr (Or.inl h3)
  · exact Or.inr (Or.inr h)

/-- One provider-role refresh step keeps every identifier below a bound
that dominates the store and both fresh identifiers. -/
theorem providerRefreshStep_bound (cfg : Config) (now : Int) (client : Client)
    (ft : FormalAccessToken) (ids : Nat × Nat) (r : Token)
    (store : List Token) (m : Nat) (rt : String)
    (htype : r.tokenType = TokenType.refresh_token)
    (hrole : r.clientRole = ClientRole.provider)
    (hft : ft.refresh_token = some rt)
    (hbound : ∀ t ∈ store, t.id < m)
    (h1 : ids.1 < m) (h2 : ids.2 < m) :
    ∀ t ∈ providerRefreshStep cfg now client ft ids r store, t.id < m := by
  obtain ⟨hAid, _, _, R2, hR2, hR2id, _, _, _, _⟩ :=
    fromFormalToken_refresh_case ids.1 ids.2 now ft r.user client
      ClientRole.provider rt hft
  have hstep : providerRefreshStep cfg now client ft ids r store
      = applyOps store
          [StoreOp.save (fromFormalToken ids.1 ids.2 now ft r.user client
              ClientRole.provider).1,
            StoreOp.removeTok r.id, StoreOp.save R2] := by
    unfold providerRefreshStep accessTokenFromRefresh resolveRefreshTok
    simp [htype, hrole, hR2]
  rw [hstep]
  intro t ht
  rcases mem_provider_ops ht with h | h | h
  · exact hbound t h
  · rw [h, hAid]
    exact h1
  · rw [h, hR2id]
    exact h2

/-- After any positive number of sequential provider-role refreshes of the
lineage, each exchanging successfully upstream and minting a new refresh
token, exactly one bearer whose linkedToken is the lineage's (final)
refresh-token identifier exists in the store. -/
theorem providerRefreshN_count (cfg : Config) (now : Int) (client : Client) :
    ∀ (fts : List FormalAccessToken) (fresh : Nat) (r : Token)
      (store : List Token),
      fts ≠ [] →
      (∀ ft ∈ fts, ft.refresh_token.isSome = true) →
      r.tokenType = TokenType.refresh_token →
      r.clientRole = ClientRole.provider →
      r.id < fresh →
      (∀ t ∈ store, t.id < fresh) →
      countBearersLinked
        (providerRefreshN cfg now client fts fresh r store).1.id
        (providerRefreshN cfg now client fts fresh r store).2 = 1 := by
  intro fts
  induction fts with
  | nil =>
    intro fresh r store hne
    exact absurd rfl hne
  | cons ft rest ih =>
    intro fresh r store _ hsome htype hrole hrlt hbound
    obtain ⟨rt, hft⟩ := Option.isSome_iff_exists.mp
      (hsome ft (List.mem_cons_self ft rest))
    obtain ⟨hAid, _, _, R2, hR2, hR2id, hR2t, hR2role, _, _⟩ :=
      fromFormalToken_refresh_case fresh (fresh + 1) now ft r.user client
        ClientRole.provider rt hft
    have hnext : nextLineageRefresh now client ft (fresh, fresh + 1) r
        = R2 := by
      unfold nextLineageRefresh
      rw [hR2]
    show countBearersLinked
      (providerRefreshN cfg now client rest (fresh + 2)
        (nextLineageRefresh now client ft (fresh, fresh + 1) r)
        (providerRefreshStep cfg now client ft (fresh, fresh + 1) r
          store)).1.id
      (providerRefreshN cfg now client rest (fresh + 2)
        (nextLineageRefresh now client ft (fresh, fresh + 1) r)
        (providerRefreshStep cfg now client ft (fresh, fresh + 1) r
          store)).2 = 1
    cases rest with
    | nil =>
      show countBearersLinked
        (nextLineageRefresh now client ft (fresh, fresh + 1) r).id
        (providerRefreshStep cfg now client ft (fresh, fresh + 1) r store)
          = 1
      exact providerRefreshStep_count cfg now client ft (fresh, fresh + 1) r
        store rt htype hrole hft
        (fun t ht => Nat.ne_of_lt (hbound t ht))
        (fun t ht => Nat.ne_of_lt (Nat.lt_succ_of_lt (hbound t ht)))
        (fun h => absurd h.symm (Nat.ne_of_lt hrlt))
        (by omega)
    | cons ft2 rest2 =>
      exact ih (fresh + 2)
        (nextLineageRefresh now client ft (fresh, fresh + 1) r)
        (providerRefreshStep cfg now client ft (fresh, fresh + 1) r store)
        (List.cons_ne_nil ft2 rest2)
        (fun ft3 hft3 => hsome ft3 (List.mem_cons_of_mem ft hft3))
        (by rw [hnext]; exact hR2t)
        (by rw [hnext]; exact hR2role)
        (by rw [hnext, hR2id]; omega)
        (providerRefreshStep_bound cfg now client ft (fresh, fresh + 1) r
          store (fresh + 2) rt htype hrole hft
          (fun t ht => Nat.lt_succ_of_lt (Nat.lt_succ_of_lt (hbound t ht)))
          (by omega) (by omega))

/-- C4: the post-save hook leaves no other bearer sharing the just-saved
bearer's linkedToken (every surviving bearer of the lineage is the saved
document), and after any number N of at least one sequential refresh of a
lineage - consumer-role refreshes, or provider-role refreshes whose
upstream exchanges succeed and replace the refresh token - exactly one
bearer token whose linkedToken is the lineage's refresh-token identifier
exists in the store. -/
theorem c4_one_live_bearer_per_refresh :
    (∀ (doc : Token) (store : List Token) (r : Nat),
        doc.tokenType = TokenType.bearer → doc.linkedToken = some r →
        ∀ t ∈ postSave doc store,
          t.tokenType = TokenType.bearer → t.linkedToken = some r →
          t.id = doc.id)
    ∧ (∀ (cfg : Config) (now : Int) (str : String) (r : Token)
        (N fresh : Nat) (store : List Token),
        r.tokenType = TokenType.refresh_token →
        r.clientRole = ClientRole.consumer →
        (∀ t ∈ store, t.id < fresh) → 1 ≤ N →
        countBearersLinked r.id (refreshN cfg now str r N fresh store) = 1)
    ∧ (∀ (cfg : Config) (now : Int) (client : Client)
        (fts : List FormalAccessToken) (fresh : Nat) (r : Token)
        (store : List Token),
        fts ≠ [] →
        (∀ ft ∈ fts, ft.refresh_token.isSome = true) →
        r.tokenType = TokenType.refresh_token →
        r.clientRole = ClientRole.provider →
        r.id < fresh →
        (∀ t ∈ store, t.id < fresh) →
        countBearersLinked
          (providerRefreshN cfg now client fts fresh r store).1.id
          (providerRefreshN cfg now client fts fresh r store).2 = 1) := by
  refine ⟨?_, ?_, ?_⟩
  · intro doc store r hb hl t ht htb htl
    unfold postSave at ht
    rw [if_pos ⟨hb, by rw [hl]; simp⟩] at ht
    have hp := (List.mem_filter.mp ht).2
    rw [decide_eq_true_eq] at hp
    by_contra hne
    exact hp ⟨htb, htl.trans hl.symm, hne⟩
  · intro cfg now str r N fresh store htype hrole hbound hN
    exact refreshN_count cfg now str r htype hrole N fresh store hbound hN
  · intro cfg now client fts fresh r store hne hsome htype hrole hrlt hbound
    exact providerRefreshN_count cfg now client fts fresh r store hne hsome
      htype hrole hrlt hbound

/-- The refresh token of a consumer-role lineage used by the C4 witness. -/
def refC4 : Token :=
  { id := 3, tokenType := TokenType.refresh_token, token := "r",
    linkedToken := none, expiresAt := none, scope := ["read"], user := some 1,
    client := 2, clientRole := ClientRole.consumer, clientName := some "svc" }

/-- Witness for C4 at concrete inputs: two sequential consumer-role
refreshes of one lineage, and two sequential successful provider-role
refreshes of another, each starting from an empty store, leave exactly one
bearer linked to the lineage's refresh token. -/
theorem c4_witness :
    countBearersLinked refC4.id (refreshN cfg0 0 "nb" refC4 2 10 []) = 1
    ∧ countBearersLinked
        (providerRefreshN cfg0 0 clientProvider [upstreamC5, upstreamC5]
          10 refC5 []).1.id
        (providerRefreshN cfg0 0 clientProvider [upstreamC5, upstreamC5]
          10 refC5 []).2 = 1 :=
  ⟨c4_one_live_bearer_per_refresh.2.1 cfg0 0 "nb" refC4 2 10 [] rfl rfl
      (by simp) (by omega),
    c4_one_live_bearer_per_refresh.2.2 cfg0 0 clientProvider
      [upstreamC5, upstreamC5] 10 refC5 [] (by simp) (by decide) rfl rfl
      (by decide) (by simp)⟩

end Attic
